import Mathlib

/-!
Verification development for the DQN agent of `backend/rl/agents/dqn.py`.

The Python module is embedded shallowly:
* tensors become lists of rationals (`List ℚ`); the exact-real arithmetic of
  the claims is carried out in `ℚ`, floating-point rounding being outside the
  model;
* the replay buffer's `deque(maxlen=capacity)` becomes a list trimmed to its
  last `capacity` elements on each append;
* randomness (`random.sample`, `random.random`, `random.randrange`) is passed
  in explicitly as draw parameters;
* the autodiff engine (backward pass, gradient clipping, Adam step) is an
  abstract function argument `GradEngine`: the claims under study quantify
  over it, none depends on the concrete gradient arithmetic;
* methods that mutate `self` return the updated record; methods that do not
  are written in state-passing form returning the unchanged record, so frame
  properties are visible in the types.
-/

namespace DQN

/-- One interaction record `(state, action, reward, next_state, done)`
pushed to the replay buffer. -/
structure Transition where
  state : List ℚ
  action : Nat
  reward : ℚ
  next_state : List ℚ
  done : Bool
  deriving DecidableEq, Inhabited

/-- Keep only the last `c` elements of a list; models the trimming a Python
`deque(maxlen=c)` performs on append. -/
def keepLast (c : Nat) (l : List α) : List α := l.drop (l.length - c)

/-- Experience replay buffer (`ReplayBuffer`, dqn.py lines 56-87): a deque
with maximum length `capacity` holding transitions. -/
structure ReplayBuffer where
  capacity : Nat
  buffer : List Transition
  deriving DecidableEq, Inhabited

/-- `ReplayBuffer.__init__`: an empty deque with maxlen `capacity`. -/
def ReplayBuffer.init (capacity : Nat) : ReplayBuffer :=
  { capacity := capacity, buffer := [] }

/-- `ReplayBuffer.push` (lines 62-71): append the transition; the deque
evicts from the front when it is at capacity. -/
def ReplayBuffer.push (b : ReplayBuffer) (t : Transition) : ReplayBuffer :=
  { capacity := b.capacity, buffer := keepLast b.capacity (b.buffer ++ [t]) }

/-- Iterated `push`, oldest call first. -/
def ReplayBuffer.pushAll (b : ReplayBuffer) (ts : List Transition) : ReplayBuffer :=
  ts.foldl ReplayBuffer.push b

/-- `ReplayBuffer.sample` (lines 73-84): `random.sample(self.buffer, k)`
raises `ValueError` when `k` exceeds the stored population, otherwise it
returns `k` stored transitions chosen by the random draw (passed in here as
`draw`, a list of indices). The method only reads the deque; the buffer is
returned unchanged in state-passing form. -/
def ReplayBuffer.sample (b : ReplayBuffer) (batch_size : Nat) (draw : List Nat) :
    Except String (List Transition) × ReplayBuffer :=
  (if b.buffer.length < batch_size then
    Except.error ("Sample larger than population or is negative")
  else
    Except.ok ((List.range batch_size).map
      (fun i => b.buffer.getD (draw.getD i 0 % b.buffer.length) default)), b)

/-- `DQNConfig` (dqn.py lines 29-53) with its dataclass defaults. -/
structure DQNConfig where
  hidden_sizes : List Nat := [128, 128, 64]
  dueling : Bool := true
  learning_rate : ℚ := 1 / 10000
  gamma : ℚ := 99 / 100
  batch_size : Nat := 64
  buffer_size : Nat := 100000
  epsilon_start : ℚ := 1
  epsilon_end : ℚ := 1 / 100
  epsilon_decay : ℚ := 995 / 1000
  target_update_freq : Nat := 100
  tau : ℚ := 5 / 1000
  min_buffer_size : Nat := 1000
  gradient_clip : ℚ := 1
  deriving DecidableEq, Inhabited

/-- Abstract numeric engine for one optimization step of `train_step`
(zero_grad, backward, gradient-norm clipping, Adam step, dqn.py lines
289-299): it maps the current policy parameters, the optimizer's internal
state and the sampled batch to updated policy parameters and optimizer
state. The concrete autodiff arithmetic lives in the torch library, outside
this module; every theorem below quantifies over the engine. -/
def GradEngine : Type :=
  List ℚ → List ℚ → List Transition → List ℚ × List ℚ

/-- Index of the first maximum of a list (torch `argmax` along the action
axis); `0` on the empty list. -/
def argmaxFrom : List ℚ → Nat → Nat → ℚ → Nat
  | [], _, besti, _ => besti
  | x :: xs, i, besti, bestv =>
    if bestv < x then argmaxFrom xs (i + 1) i x
    else argmaxFrom xs (i + 1) besti bestv

/-- Entry point of the first-maximum search. -/
def argmaxIdx : List ℚ → Nat
  | [] => 0
  | x :: xs => argmaxFrom xs 1 0 x

/-- Arithmetic mean of a list (`np.mean`, tensor `.mean()`); `0` on `[]`. -/
def listMean (l : List ℚ) : ℚ := l.sum / l.length

/-- Maximum of a list (`max(...)` over a nonempty Python list). -/
def listMax (l : List ℚ) : ℚ := l.foldl max (l.headD 0)

/-- `F.smooth_l1_loss` with its defaults (beta = 1, mean reduction):
elementwise `0.5 d^2` when `|d| < 1` and `|d| - 0.5` otherwise, averaged. -/
def smoothL1 (pred target : List ℚ) : ℚ :=
  listMean ((pred.zip target).map (fun pt =>
    if |pt.1 - pt.2| < 1 then (pt.1 - pt.2) ^ 2 / 2 else |pt.1 - pt.2| - 1 / 2))

/-- Float value of a done flag (`np.array(dones, dtype=np.float32)`). -/
def doneQ (d : Bool) : ℚ := if d then 1 else 0

/-- `DQNAgent._soft_update_target` (dqn.py lines 318-327): walk the zipped
parameter sequences and overwrite each target parameter with
`tau * policy + (1 - tau) * target`. -/
def softUpdateList (tau : ℚ) (target policy : List ℚ) : List ℚ :=
  (target.zip policy).map (fun tp => tau * tp.2 + (1 - tau) * tp.1)

/-- `DQNAgent` state (dqn.py lines 169-224). The two torch modules are
represented by one forward-pass semantics `qForward` (fixed at construction,
shared by both networks, which are architecturally identical) applied to the
respective parameter vectors `policyParams` / `targetParams`; `optimState`
is the Adam optimizer's internal state. -/
structure DQNAgent where
  config : DQNConfig
  state_dim : Nat
  action_dim : Nat
  qForward : List ℚ → List ℚ → List ℚ
  policyParams : List ℚ
  targetParams : List ℚ
  optimState : List ℚ
  replay_buffer : ReplayBuffer
  epsilon : ℚ
  training_steps : Nat
  episode_count : Nat
  losses : List ℚ
  rewards_history : List ℚ
  epsilon_history : List ℚ

/-- The agent state `DQNAgent.__init__` (dqn.py lines 169-224) assembles
once the torch constructions succeed. Torch's random layer initialization
is abstracted as the given parameter vector `p`; line 204 loads the policy
state dict into the target net, so both start at `p`. Epsilon starts at
`epsilon_start`, both counters at zero, the histories empty, and the buffer
empty with capacity `buffer_size`. -/
def DQNAgent.mkState (state_dim action_dim : Nat) (config : DQNConfig)
    (qF : List ℚ → List ℚ → List ℚ) (p : List ℚ) : DQNAgent :=
  { config := config
    state_dim := state_dim
    action_dim := action_dim
    qForward := qF
    policyParams := p
    targetParams := p
    optimState := []
    replay_buffer := ReplayBuffer.init config.buffer_size
    epsilon := config.epsilon_start
    training_steps := 0
    episode_count := 0
    losses := []
    rewards_history := []
    epsilon_history := [] }

/-- `DQNAgent.__init__` itself (dqn.py lines 169-224), including its
construction-time failure paths. The constructor performs no hyperparameter
validation of its own; the only ways it can raise are library checks hit on
the way: building `DuelingQNetwork` (line 189) evaluates
`hidden_sizes[-1]`, an IndexError when the list is empty, and
`optim.Adam` (lines 208-211) rejects a negative learning rate with a
ValueError — in that source order. Size and capacity arguments are `Nat`
here, so torch's negative-dimension errors are unrepresentable. Everything
else — in particular every hyperparameter the spec's ConfigurationError
enumerates — is stored verbatim, unchecked. -/
def DQNAgent.init (state_dim action_dim : Nat) (config : DQNConfig)
    (qF : List ℚ → List ℚ → List ℚ) (p : List ℚ) : Except String DQNAgent :=
  if config.hidden_sizes = [] then
    Except.error ("list index out of range")
  else if config.learning_rate < 0 then
    Except.error ("Invalid learning rate")
  else
    Except.ok (DQNAgent.mkState state_dim action_dim config qF p)

/-- `DQNAgent.select_action` (dqn.py lines 226-243): with probability
epsilon in training mode return a uniform random action
(`random.randrange(action_dim)`, modelled as `randIdx % action_dim`),
otherwise the argmax of the policy net's Q-values. `randUniform` models
`random.random()`. The method assigns no attribute: the agent comes back
unchanged. -/
def selectAction (a : DQNAgent) (state : List ℚ) (training : Bool)
    (randUniform : ℚ) (randIdx : Nat) : Nat × DQNAgent :=
  (if training = true ∧ randUniform < a.epsilon then randIdx % a.action_dim
   else argmaxIdx (a.qForward a.policyParams state), a)

/-- `DQNAgent.store_transition` (lines 245-254): forwards to the buffer. -/
def storeTransition (a : DQNAgent) (state : List ℚ) (action : Nat)
    (reward : ℚ) (next_state : List ℚ) (done : Bool) : DQNAgent :=
  { a with replay_buffer :=
      a.replay_buffer.push ⟨state, action, reward, next_state, done⟩ }

/-- `DQNAgent.train_step` (dqn.py lines 256-316), one call. The random
batch draw and the numeric engine are passed in. During warm-up
(`len(buffer) < min_buffer_size`) the call returns `None` having touched
nothing. Otherwise the sampled batch yields `current_q` (policy net gathered
at the taken actions), the Double-DQN `target_q`, the smooth-L1 loss, the
engine's parameter update, the counter / history updates, the cadence-gated
soft target update (computed from the freshly updated policy parameters) and
the epsilon decay. A sampling failure propagates as the `Except` error the
way the Python exception would. `target_update_freq` is assumed positive
(`% 0` raises in Python). -/
def trainStep (engine : GradEngine) (draw : List Nat) (a : DQNAgent) :
    Except String (DQNAgent × Option ℚ) :=
  if a.replay_buffer.buffer.length < a.config.min_buffer_size then
    Except.ok (a, none)
  else
    (a.replay_buffer.sample a.config.batch_size draw).1.map (fun batch =>
      let states := batch.map Transition.state
      let actions := batch.map Transition.action
      let rewards := batch.map Transition.reward
      let next_states := batch.map Transition.next_state
      let dones := batch.map (fun t => doneQ t.done)
      let current_q := (states.zip actions).map
        (fun sa => (a.qForward a.policyParams sa.1).getD sa.2 0)
      let next_actions := next_states.map
        (fun s => argmaxIdx (a.qForward a.policyParams s))
      let next_q := (next_states.zip next_actions).map
        (fun sna => (a.qForward a.targetParams sna.1).getD sna.2 0)
      let target_q := (rewards.zip (dones.zip next_q)).map
        (fun rdn => rdn.1 + (1 - rdn.2.1) * a.config.gamma * rdn.2.2)
      let loss := smoothL1 current_q target_q
      let po := engine a.policyParams a.optimState batch
      let steps := a.training_steps + 1
      let tparams := if steps % a.config.target_update_freq = 0
        then softUpdateList a.config.tau a.targetParams po.1
        else a.targetParams
      let eps := max a.config.epsilon_end (a.epsilon * a.config.epsilon_decay)
      ({ a with policyParams := po.1
                optimState := po.2
                training_steps := steps
                losses := a.losses ++ [loss]
                targetParams := tparams
                epsilon := eps
                epsilon_history := a.epsilon_history ++ [eps] }, some loss))

/-- `DQNAgent.end_episode` (lines 329-332). -/
def endEpisode (a : DQNAgent) (total_reward : ℚ) : DQNAgent :=
  { a with episode_count := a.episode_count + 1
           rewards_history := a.rewards_history ++ [total_reward] }

/-- `DQNAgent.get_metrics` (dqn.py lines 334-350): the metrics dict in its
insertion order; `avg_loss` appears when any loss was recorded, `avg_reward`
and `best_reward` when any episode ended; averages run over the last 100
entries. Counters are reported as numbers. The method reads state only; the
agent comes back unchanged. -/
def getMetrics (a : DQNAgent) : List (String × ℚ) × DQNAgent :=
  ([("training_steps", (a.training_steps : ℚ)),
    ("episode_count", (a.episode_count : ℚ)),
    ("epsilon", a.epsilon),
    ("buffer_size", (a.replay_buffer.buffer.length : ℚ))]
   ++ (if a.losses.isEmpty then []
       else [("avg_loss", listMean (keepLast 100 a.losses))])
   ++ (if a.rewards_history.isEmpty then []
       else [("avg_reward", listMean (keepLast 100 a.rewards_history)),
             ("best_reward", listMax a.rewards_history)]), a)

/-- `DQNAgent.get_q_values` (lines 376-381): the policy net's raw Q-vector
for one state, under `no_grad`; nothing is mutated. -/
def getQValues (a : DQNAgent) (state : List ℚ) : List ℚ × DQNAgent :=
  (a.qForward a.policyParams state, a)

/-- One linear layer `nn.Linear`: a weight matrix (one row per output
feature) and a bias vector. -/
structure Linear where
  weight : List (List ℚ)
  bias : List ℚ

/-- Dot product of a weight row with the input. -/
def dot (w x : List ℚ) : ℚ := ((w.zip x).map (fun p => p.1 * p.2)).sum

/-- Forward pass of a linear layer. -/
def Linear.eval (l : Linear) (x : List ℚ) : List ℚ :=
  (l.weight.zip l.bias).map (fun wb => dot wb.1 x + wb.2)

/-- Elementwise `nn.ReLU`. -/
def reluVec (x : List ℚ) : List ℚ := x.map (fun v => max v 0)

/-- A two-layer head `nn.Sequential(Linear, ReLU, Linear)` as used by the
value, advantage and plain-Q streams (dqn.py lines 122-142). -/
def headEval (h : Linear × Linear) (x : List ℚ) : List ℚ :=
  h.2.eval (reluVec (h.1.eval x))

/-- `DuelingQNetwork` (dqn.py lines 92-155). The shared trunk `features`
(a stack of `Linear`/`ReLU`/`LayerNorm` blocks, lines 111-120) computes with
a square root inside `LayerNorm`, so it is abstracted as an arbitrary
embedding function; the claims about this network quantify over the trunk's
output. The heads are the concrete two-layer sequentials of the source: the
value stream ends in a single output feature, the advantage and plain-Q
streams in `action_dim` features. -/
structure DuelingQNetwork where
  dueling : Bool
  features : List ℚ → List ℚ
  value_stream : Linear × Linear
  advantage_stream : Linear × Linear
  q_layer : Linear × Linear

/-- `DuelingQNetwork.forward` (dqn.py lines 144-155). In the dueling branch
`value` has one entry per sample which broadcasts over the action axis, so
per action `a` the output is `value[0] + (advantage[a] - mean(advantage))`;
otherwise the plain head's output is returned. -/
def DuelingQNetwork.forward (n : DuelingQNetwork) (x : List ℚ) : List ℚ :=
  let features := n.features x
  if n.dueling then
    let value := headEval n.value_stream features
    let advantage := headEval n.advantage_stream features
    advantage.map (fun av => value.getD 0 0 + (av - listMean advantage))
  else
    headEval n.q_layer features

/-- One successful `train_step` call relates an agent state to its
successor, for some random draw and some numeric engine. -/
def TrainStepRel (x y : DQNAgent) : Prop :=
  ∃ engine draw l, trainStep engine draw x = Except.ok (y, l)

/-- One step of the driving loop: either a `store_transition` call (these
fill the buffer and make the agent warm) or a successful `train_step`. -/
def AgentStepRel (x y : DQNAgent) : Prop :=
  (∃ s act r s2 d, y = storeTransition x s act r s2 d) ∨ TrainStepRel x y

/-- Reachability by a finite sequence of `store_transition` and successful
`train_step` calls. -/
def AgentReach : DQNAgent → DQNAgent → Prop :=
  Relation.ReflTransGen AgentStepRel

/-! Concrete instances used to evaluate the definitions on explicit inputs. -/

/-- The rational one half, written as a raw fraction so it evaluates in the
kernel. -/
def half : ℚ := ⟨1, 2, by decide, Nat.coprime_one_left 2⟩

/-- A kernel-evaluable exploration configuration that becomes warm after a
single push and genuinely decays epsilon. -/
def cfgW : DQNConfig :=
  { epsilon_start := 1, epsilon_end := 0, epsilon_decay := half,
    learning_rate := 1, min_buffer_size := 1, batch_size := 1,
    buffer_size := 10 }

/-- A transition carrying only a reward tag, for buffer experiments. -/
def tr (r : ℚ) : Transition := ⟨[], 0, r, [], false⟩

/-- A transition on a one-dimensional state space with one action; its
`done` flag is set, so its bootstrapped target is its reward. -/
def t0 : Transition := ⟨[0], 0, 0, [0], true⟩

/-- A network semantics returning an empty Q-vector. -/
def qfZero : List ℚ → List ℚ → List ℚ := fun _ _ => []

/-- A network semantics with a single action of constant value zero. -/
def qfConst1 : List ℚ → List ℚ → List ℚ := fun _ _ => [0]

/-- An engine leaving parameters and optimizer state untouched (a gradient
step at a critical point). -/
def engineId : GradEngine := fun p o _ => (p, o)

/-- An engine moving the policy parameters to `[5]`. -/
def engineShift : GradEngine := fun _ o _ => ([5], o)

/-- An invalid configuration: `min_buffer_size < batch_size` and `tau`
outside `(0, 1]`; the learning rate is an integer so the constructor's
checks evaluate in the kernel, the remaining fields keep their dataclass
defaults. -/
def cfgBad : DQNConfig := { min_buffer_size := 0, tau := 2, learning_rate := 1 }

/-- A small configuration whose soft updates are gated at the default
cadence of 100 steps, with a hard (`tau = 1`) update. -/
def cfgSmall : DQNConfig :=
  { batch_size := 1, min_buffer_size := 1, target_update_freq := 100,
    tau := 1, gamma := 1 / 2, buffer_size := 10 }

/-- Like `cfgSmall` but updating on every step with `tau = 1/2`. -/
def cfgCadence : DQNConfig :=
  { batch_size := 1, min_buffer_size := 1, target_update_freq := 1,
    tau := 1 / 2, gamma := 1 / 2, buffer_size := 10 }

/-- A buffer of capacity 10 holding the single transition `t0`. -/
def bufOne : ReplayBuffer := ⟨10, [t0]⟩

/-- A warm agent under `cfgSmall` whose target parameters `[1]` differ from
its policy parameters `[0]`. -/
def A1 : DQNAgent :=
  { config := cfgSmall, state_dim := 1, action_dim := 1, qForward := qfConst1,
    policyParams := [0], targetParams := [1], optimState := [],
    replay_buffer := bufOne, epsilon := 1, training_steps := 0,
    episode_count := 0, losses := [], rewards_history := [],
    epsilon_history := [] }

/-- The same warm agent under the every-step cadence `cfgCadence`. -/
def A3 : DQNAgent := { A1 with config := cfgCadence }

/-- A freshly constructed agent with all-default configuration; its buffer
is empty, so it is cold. -/
def A0 : DQNAgent := DQNAgent.mkState 6 4 {} qfConst1 [0]

/-- A freshly constructed agent under `cfgW`. -/
def W0 : DQNAgent := DQNAgent.mkState 1 1 cfgW qfConst1 [0]

/-- The agent `W0` after one `store_transition` of `t0`: one stored
transition with `min_buffer_size = 1`, hence warm. -/
def B0 : DQNAgent := storeTransition W0 [0] 0 0 [0] true

/-- A one-input linear layer with identity weight. -/
def lin1 : Linear := ⟨[[1]], [0]⟩

/-- A linear layer from one feature to two outputs. -/
def lin2 : Linear := ⟨[[1], [2]], [0, 0]⟩

/-- A small concrete dueling network with identity trunk. -/
def net2 : DuelingQNetwork :=
  { dueling := true, features := fun x => x, value_stream := (lin1, lin1),
    advantage_stream := (lin1, lin2), q_layer := (lin1, lin1) }

/-! Per-transition forms of the batched tensor computations of
`train_step`; the characterization lemma below proves that the zipped
array computation of the source equals these maps. -/

/-- Per-transition gathered Q-values `Q_policy(s)[a]` of a batch. -/
def currentQList (a : DQNAgent) (batch : List Transition) : List ℚ :=
  batch.map (fun t => (a.qForward a.policyParams t.state).getD t.action 0)

/-- Per-transition Double-DQN regression targets of a batch:
`r + (1 - done) * gamma * Q_target(s')[argmax_a Q_policy(s', a)]` — action
selected by the policy network, evaluated by the target network. -/
def ddqnTargetList (a : DQNAgent) (batch : List Transition) : List ℚ :=
  batch.map (fun t => t.reward + (1 - doneQ t.done) * a.config.gamma *
    (a.qForward a.targetParams t.next_state).getD
      (argmaxIdx (a.qForward a.policyParams t.next_state)) 0)

/-- The loss a warm `train_step` computes on a batch. -/
def warmLoss (a : DQNAgent) (batch : List Transition) : ℚ :=
  smoothL1 (currentQList a batch) (ddqnTargetList a batch)

/-- The agent state a warm `train_step` produces on a batch under a given
engine. -/
def warmAgent (engine : GradEngine) (a : DQNAgent) (batch : List Transition) :
    DQNAgent :=
  { a with
    policyParams := (engine a.policyParams a.optimState batch).1
    optimState := (engine a.policyParams a.optimState batch).2
    training_steps := a.training_steps + 1
    losses := a.losses ++ [warmLoss a batch]
    targetParams :=
      if (a.training_steps + 1) % a.config.target_update_freq = 0 then
        softUpdateList a.config.tau a.targetParams
          (engine a.policyParams a.optimState batch).1
      else a.targetParams
    epsilon := max a.config.epsilon_end (a.epsilon * a.config.epsilon_decay)
    epsilon_history := a.epsilon_history ++
      [max a.config.epsilon_end (a.epsilon * a.config.epsilon_decay)] }

/-! Auxiliary lemmas. -/

theorem keepLast_length (c : Nat) (l : List α) :
    (keepLast c l).length = min l.length c := by
  simp only [keepLast, List.length_drop]
  omega

theorem keepLast_of_le (c : Nat) (l : List α) (h : l.length ≤ c) :
    keepLast c l = l := by
  simp only [keepLast]
  rw [Nat.sub_eq_zero_of_le h, List.drop_zero]

theorem keepLast_idem_append (c : Nat) (l xs : List α) :
    keepLast c (keepLast c l ++ xs) = keepLast c (l ++ xs) := by
  simp only [keepLast]
  rw [← List.drop_append_of_le_length (by omega : l.length - c ≤ l.length)]
  rw [List.drop_drop]
  congr 1
  simp only [List.length_drop, List.length_append]
  omega

theorem pushAll_eq : ∀ (ts : List Transition) (b : ReplayBuffer),
    b.buffer.length ≤ b.capacity →
    b.pushAll ts = ⟨b.capacity, keepLast b.capacity (b.buffer ++ ts)⟩
  | [], b, h => by
    cases b with
    | mk cap buf =>
      simp only [ReplayBuffer.pushAll, List.foldl_nil, List.append_nil]
      rw [keepLast_of_le _ _ h]
  | t :: ts, b, h => by
    have hstep : (b.push t).buffer.length ≤ (b.push t).capacity := by
      simp only [ReplayBuffer.push, keepLast_length]
      omega
    have ih := pushAll_eq ts (b.push t) hstep
    simp only [ReplayBuffer.pushAll, List.foldl_cons] at ih ⊢
    rw [ih]
    simp only [ReplayBuffer.push]
    rw [keepLast_idem_append, List.append_assoc]
    rfl

theorem trainStep_warm (engine : GradEngine) (draw : List Nat) (a : DQNAgent)
    (batch : List Transition)
    (hwarm : a.config.min_buffer_size ≤ a.replay_buffer.buffer.length)
    (hs : (a.replay_buffer.sample a.config.batch_size draw).1 = Except.ok batch) :
    trainStep engine draw a =
      Except.ok (warmAgent engine a batch, some (warmLoss a batch)) := by
  unfold trainStep
  rw [if_neg (Nat.not_lt.mpr hwarm), hs]
  simp only [Except.map, warmAgent, warmLoss, currentQList, ddqnTargetList,
    List.zip_map', List.map_map]
  rfl

theorem softUpdateList_tau_one : ∀ (t p : List ℚ), t.length = p.length →
    softUpdateList 1 t p = p
  | [], [], _ => rfl
  | [], _ :: _, h => by simp at h
  | _ :: _, [], h => by simp at h
  | x :: t, y :: p, h => by
    have ih := softUpdateList_tau_one t p (by simpa using h)
    simp only [softUpdateList, List.zip_cons_cons, List.map_cons] at ih ⊢
    rw [ih]
    norm_num

theorem softUpdateList_getD (tau : ℚ) (t p : List ℚ) (i : Nat)
    (ht : i < t.length) (hp : i < p.length) :
    (softUpdateList tau t p).getD i 0 =
      tau * p.getD i 0 + (1 - tau) * t.getD i 0 := by
  have hzip : i < (t.zip p).length := by
    rw [List.length_zip]; omega
  rw [softUpdateList, List.getD_eq_getElem _ _ (by simpa using hzip),
    List.getElem_map, List.getElem_zip, List.getD_eq_getElem _ _ ht,
    List.getD_eq_getElem _ _ hp]

theorem trainStepRel_cases {x y : DQNAgent} (h : TrainStepRel x y) :
    y.config = x.config ∧
    ((x.replay_buffer.buffer.length < x.config.min_buffer_size ∧ y = x) ∨
     (x.config.min_buffer_size ≤ x.replay_buffer.buffer.length ∧
      y.epsilon = max x.config.epsilon_end (x.epsilon * x.config.epsilon_decay))) := by
  obtain ⟨e, d, l, hstep⟩ := h
  by_cases hw : x.replay_buffer.buffer.length < x.config.min_buffer_size
  · have hcold : trainStep e d x = Except.ok (x, none) := by
      unfold trainStep
      rw [if_pos hw]
    rw [hcold] at hstep
    obtain ⟨rfl, -⟩ : x = y ∧ none = l := by simpa using hstep
    exact ⟨rfl, Or.inl ⟨hw, rfl⟩⟩
  · cases hsample : (x.replay_buffer.sample x.config.batch_size d).1 with
    | error m =>
      have herr : trainStep e d x = Except.error m := by
        unfold trainStep
        rw [if_neg hw, hsample]
        rfl
      rw [herr] at hstep
      cases hstep
    | ok batch =>
      have hok := trainStep_warm e d x batch (Nat.not_lt.1 hw) hsample
      rw [hok] at hstep
      obtain ⟨rfl, -⟩ : warmAgent e x batch = y ∧ some (warmLoss x batch) = l := by
        simpa using hstep
      exact ⟨rfl, Or.inr ⟨Nat.not_lt.1 hw, rfl⟩⟩

/-- C5: for every capacity `C` and every sequence of pushes into an
initially empty buffer, the occupancy never exceeds `C`, the contents are
the most recent pushes in insertion order, and after more than `C` pushes
the buffer holds exactly the most recent `C` transitions — the oldest have
been evicted first. -/
theorem replay_buffer_fifo (C : Nat) (ts : List Transition) :
    ((ReplayBuffer.init C).pushAll ts).buffer.length ≤ C ∧
    ((ReplayBuffer.init C).pushAll ts).buffer = ts.drop (ts.length - C) ∧
    (C < ts.length →
      ((ReplayBuffer.init C).pushAll ts).buffer.length = C ∧
      ((ReplayBuffer.init C).pushAll ts).buffer = ts.drop (ts.length - C)) := by
  have h := pushAll_eq ts (ReplayBuffer.init C) (by simp [ReplayBuffer.init])
  rw [h]
  simp only [ReplayBuffer.init, List.nil_append]
  refine ⟨?_, rfl, fun hlt => ⟨?_, rfl⟩⟩
  · rw [keepLast_length]; omega
  · rw [keepLast_length]; omega

/-- Witness for C5: capacity 2, three pushes, the first transition gone. -/
theorem replay_buffer_fifo_witness :
    2 < ([tr 1, tr 2, tr 3] : List Transition).length ∧
    ((ReplayBuffer.init 2).pushAll [tr 1, tr 2, tr 3]).buffer.length = 2 ∧
    ((ReplayBuffer.init 2).pushAll [tr 1, tr 2, tr 3]).buffer = [tr 2, tr 3] := by
  have h := (replay_buffer_fifo 2 [tr 1, tr 2, tr 3]).2.2 (by decide)
  exact ⟨by decide, h.1, h.2.trans (by decide)⟩

/-- C6: during warm-up (`len(buffer) < min_buffer_size`) `train_step`
returns the no-training signal `None` and the agent record — networks,
optimizer state, counters, epsilon, histories and buffer — unchanged. -/
theorem warmup_noop (engine : GradEngine) (draw : List Nat) (a : DQNAgent)
    (h : a.replay_buffer.buffer.length < a.config.min_buffer_size) :
    trainStep engine draw a = Except.ok (a, none) := by
  unfold trainStep
  rw [if_pos h]

/-- Witness for C6: a freshly constructed agent is cold and a `train_step`
leaves it untouched. -/
theorem warmup_noop_witness :
    A0.replay_buffer.buffer.length < A0.config.min_buffer_size ∧
    trainStep engineId [] A0 = Except.ok (A0, none) :=
  ⟨by decide, warmup_noop engineId [] A0 (by decide)⟩

/-- C7: `sample` fails with the insufficient-samples error exactly when
more items are requested than stored, and — whatever the buffer and history
of calls — `train_step` of an agent configured with
`batch_size ≤ min_buffer_size` never triggers it: the call always returns
`ok`. -/
theorem sample_guarded (b : ReplayBuffer) (k : Nat) (d : List Nat)
    (engine : GradEngine) (draw : List Nat) (a : DQNAgent)
    (hcfg : a.config.batch_size ≤ a.config.min_buffer_size) :
    (b.buffer.length < k →
      (b.sample k d).1 =
        Except.error ("Sample larger than population or is negative")) ∧
    (k ≤ b.buffer.length → ∃ batch, (b.sample k d).1 = Except.ok batch) ∧
    (∃ res, trainStep engine draw a = Except.ok res) := by
  refine ⟨fun h => ?_, fun h => ?_, ?_⟩
  · simp [ReplayBuffer.sample, if_pos h]
  · exact ⟨_, by unfold ReplayBuffer.sample; rw [if_neg (Nat.not_lt.mpr h)]⟩
  · by_cases hw : a.replay_buffer.buffer.length < a.config.min_buffer_size
    · exact ⟨(a, none), by unfold trainStep; rw [if_pos hw]⟩
    · have hlen : a.config.batch_size ≤ a.replay_buffer.buffer.length := by
        omega
      have hs : (a.replay_buffer.sample a.config.batch_size draw).1 =
          Except.ok ((List.range a.config.batch_size).map
            (fun i => a.replay_buffer.buffer.getD
              (draw.getD i 0 % a.replay_buffer.buffer.length) default)) := by
        simp [ReplayBuffer.sample, Nat.not_lt.mpr hlen]
      exact ⟨_, trainStep_warm engine draw a _ (by omega) hs⟩

/-- Witness for C7: requesting 2 of 1 stored transitions errors, while the
default-configured agent's `train_step` returns `ok`. -/
theorem sample_guarded_witness :
    A0.config.batch_size ≤ A0.config.min_buffer_size ∧
    ((bufOne.buffer.length < 2 →
      (bufOne.sample 2 []).1 =
        Except.error ("Sample larger than population or is negative")) ∧
     (2 ≤ bufOne.buffer.length →
      ∃ batch, (bufOne.sample 2 []).1 = Except.ok batch) ∧
     (∃ res, trainStep engineId [] A0 = Except.ok res)) :=
  ⟨by decide, sample_guarded bufOne 2 [] engineId [] A0 (by decide)⟩

/-- C10: the read-only operations `select_action` (either training mode),
`get_q_values`, `get_metrics` and `ReplayBuffer.sample` return the agent
resp. buffer exactly as they found it: parameters, optimizer state,
epsilon, counters, histories and buffer contents are untouched — in
particular `select_action` with `training = true` does not decay epsilon
and sampling removes nothing from the buffer. -/
theorem readonly_ops_frame (a : DQNAgent) (s s2 : List ℚ) (training : Bool)
    (randUniform : ℚ) (randIdx : Nat) (b : ReplayBuffer) (k : Nat)
    (d : List Nat) :
    (selectAction a s training randUniform randIdx).2 = a ∧
    (getQValues a s2).2 = a ∧
    (getMetrics a).2 = a ∧
    (b.sample k d).2 = b :=
  ⟨rfl, rfl, rfl, rfl⟩

/-- C1: on a warm `train_step` whose sampler returned `batch`, the returned
loss regresses the gathered policy Q-values onto Double-DQN targets: for
every sampled transition `(s, a, r, s2, done)` the bootstrapped target is
`r + (1 - done) * gamma * Q_target(s2)[argmax_a Q_policy(s2, a)]` — the
next action selected by the policy network, its value evaluated by the
target network. -/
theorem double_dqn_target (engine : GradEngine) (draw : List Nat)
    (a : DQNAgent) (batch : List Transition)
    (hwarm : a.config.min_buffer_size ≤ a.replay_buffer.buffer.length)
    (hs : (a.replay_buffer.sample a.config.batch_size draw).1 =
      Except.ok batch) :
    ∃ a2, trainStep engine draw a =
      Except.ok (a2, some (smoothL1
        (batch.map (fun t => (a.qForward a.policyParams t.state).getD t.action 0))
        (batch.map (fun t => t.reward + (1 - doneQ t.done) * a.config.gamma *
          (a.qForward a.targetParams t.next_state).getD
            (argmaxIdx (a.qForward a.policyParams t.next_state)) 0)))) :=
  ⟨_, trainStep_warm engine draw a batch hwarm hs⟩

/-- Witness for C1 at the concrete warm agent `A1` and its one-element
batch. -/
theorem double_dqn_target_witness :
    A1.config.min_buffer_size ≤ A1.replay_buffer.buffer.length ∧
    ∃ a2, trainStep engineId [0] A1 =
      Except.ok (a2, some (smoothL1
        ([t0].map (fun t => (A1.qForward A1.policyParams t.state).getD t.action 0))
        ([t0].map (fun t => t.reward + (1 - doneQ t.done) * A1.config.gamma *
          (A1.qForward A1.targetParams t.next_state).getD
            (argmaxIdx (A1.qForward A1.policyParams t.next_state)) 0)))) :=
  ⟨by decide, double_dqn_target engineId [0] A1 [t0] (by decide) rfl⟩

/-- C2: with `dueling = True` the forward pass returns, for every action
index `i` of the advantage head's output, the value
`V(s) + (A(s, i) - mean_j A(s, j))`, the scalar value head and the
advantage head both being applied to the shared trunk embedding. -/
theorem dueling_forward_identity (n : DuelingQNetwork) (x : List ℚ) (i : Nat)
    (hd : n.dueling = true)
    (hi : i < (headEval n.advantage_stream (n.features x)).length) :
    (n.forward x).getD i 0 =
      (headEval n.value_stream (n.features x)).getD 0 0 +
      ((headEval n.advantage_stream (n.features x)).getD i 0 -
        listMean (headEval n.advantage_stream (n.features x))) := by
  unfold DuelingQNetwork.forward
  simp only [hd, if_true]
  rw [List.getD_eq_getElem _ _ (by simpa using hi), List.getElem_map,
    List.getD_eq_getElem _ _ hi]

/-- Witness for C2 at a concrete two-action dueling network. -/
theorem dueling_forward_identity_witness :
    net2.dueling = true ∧
    1 < (headEval net2.advantage_stream (net2.features [1])).length ∧
    (net2.forward [1]).getD 1 0 =
      (headEval net2.value_stream (net2.features [1])).getD 0 0 +
      ((headEval net2.advantage_stream (net2.features [1])).getD 1 0 -
        listMean (headEval net2.advantage_stream (net2.features [1]))) :=
  ⟨rfl, by decide, dueling_forward_identity net2 [1] 1 rfl (by decide)⟩

/-- C3 fails as stated: `A1` is warm, has `tau = 1`, and its target and
policy parameters differ, yet one `train_step` leaves the target parameters
at `[1]` while the policy parameters are `[0]` — the soft update only runs
when `training_steps` is divisible by `target_update_freq` (here 100), so a
single call does not synchronize the networks. -/
theorem target_update_single_step_cex :
    A1.config.tau = 1 ∧
    A1.config.min_buffer_size ≤ A1.replay_buffer.buffer.length ∧
    Except.map (fun r => (r.1.targetParams, r.1.policyParams))
      (trainStep engineId [0] A1) = Except.ok ([1], [0]) := by
  refine ⟨rfl, by decide, ?_⟩
  rw [trainStep_warm engineId [0] A1 [t0] (by decide) rfl]
  rfl

/-- C3 (amended): on a warm `train_step` that lands on the target-update
cadence (`training_steps` divisible by `target_update_freq` after the
increment), `tau = 1` makes the target parameters exactly equal to the
(freshly updated) policy parameters; with `0 < tau < 1` every target
component whose value differs from the corresponding policy component moves
strictly between its old value and that policy component — toward, never
past. Off-cadence steps (the counterexample) leave the target parameters
unchanged. -/
theorem target_soft_update_tracking (engine : GradEngine) (draw : List Nat)
    (a : DQNAgent) (batch : List Transition)
    (hwarm : a.config.min_buffer_size ≤ a.replay_buffer.buffer.length)
    (hs : (a.replay_buffer.sample a.config.batch_size draw).1 =
      Except.ok batch)
    (hfreq : (a.training_steps + 1) % a.config.target_update_freq = 0)
    (hlen : a.targetParams.length =
      (engine a.policyParams a.optimState batch).1.length) :
    ∃ a2 l, trainStep engine draw a = Except.ok (a2, l) ∧
      (a.config.tau = 1 → a2.targetParams = a2.policyParams) ∧
      (0 < a.config.tau → a.config.tau < 1 →
        ∀ i, i < a.targetParams.length →
          a.targetParams.getD i 0 ≠
            (engine a.policyParams a.optimState batch).1.getD i 0 →
          min (a.targetParams.getD i 0)
              ((engine a.policyParams a.optimState batch).1.getD i 0) <
            a2.targetParams.getD i 0 ∧
          a2.targetParams.getD i 0 <
            max (a.targetParams.getD i 0)
              ((engine a.policyParams a.optimState batch).1.getD i 0)) := by
  refine ⟨_, _, trainStep_warm engine draw a batch hwarm hs, ?_, ?_⟩
  · intro htau
    show (warmAgent engine a batch).targetParams =
      (warmAgent engine a batch).policyParams
    simp only [warmAgent, if_pos hfreq]
    rw [htau]
    exact softUpdateList_tau_one _ _ hlen
  · intro h0 h1 i hi hne
    have hup : (warmAgent engine a batch).targetParams.getD i 0 =
        a.config.tau * (engine a.policyParams a.optimState batch).1.getD i 0 +
        (1 - a.config.tau) * a.targetParams.getD i 0 := by
      show (if (a.training_steps + 1) % a.config.target_update_freq = 0 then
        softUpdateList a.config.tau a.targetParams
          (engine a.policyParams a.optimState batch).1
        else a.targetParams).getD i 0 = _
    -- the cadence hypothesis selects the soft-update branch
      rw [if_pos hfreq]
      exact softUpdateList_getD _ _ _ i hi (by omega)
    rw [hup]
    rcases lt_or_gt_of_ne hne with h | h
    · rw [min_eq_left h.le, max_eq_right h.le]
      constructor <;> nlinarith
    · rw [min_eq_right h.le, max_eq_left h.le]
      constructor <;> nlinarith

/-- Witness for C3 (amended) at the every-step cadence agent `A3` with
`tau = 1/2`, identity engine and the singleton batch. -/
theorem target_soft_update_tracking_witness :
    A3.config.min_buffer_size ≤ A3.replay_buffer.buffer.length ∧
    (A3.training_steps + 1) % A3.config.target_update_freq = 0 ∧
    ∃ a2 l, trainStep engineId [0] A3 = Except.ok (a2, l) ∧
      (A3.config.tau = 1 → a2.targetParams = a2.policyParams) ∧
      (0 < A3.config.tau → A3.config.tau < 1 →
        ∀ i, i < A3.targetParams.length →
          A3.targetParams.getD i 0 ≠
            (engineId A3.policyParams A3.optimState [t0]).1.getD i 0 →
          min (A3.targetParams.getD i 0)
              ((engineId A3.policyParams A3.optimState [t0]).1.getD i 0) <
            a2.targetParams.getD i 0 ∧
          a2.targetParams.getD i 0 <
            max (A3.targetParams.getD i 0)
              ((engineId A3.policyParams A3.optimState [t0]).1.getD i 0)) :=
  ⟨by decide, by decide,
    target_soft_update_tracking engineId [0] A3 [t0] (by decide) rfl
      (by decide) (by decide)⟩

/-- C4: for a successfully constructed agent whose exploration
configuration is within its documented ranges
(`0 ≤ epsilon_end ≤ epsilon_start`, `epsilon_decay ∈ [0, 1]`), epsilon
starts at `epsilon_start`; along every finite sequence of
`store_transition` and `train_step` calls — the driving loop that fills
the buffer and trains — it stays in `[epsilon_end, epsilon_start]` and
never increases; and every warm `train_step` sets it to
`max(epsilon_end, epsilon * epsilon_decay)`. -/
theorem epsilon_monotone_bounds (sd ad : Nat) (cfg : DQNConfig)
    (qF : List ℚ → List ℚ → List ℚ) (p : List ℚ) (a0 : DQNAgent)
    (hinit : DQNAgent.init sd ad cfg qF p = Except.ok a0)
    (h0 : 0 ≤ cfg.epsilon_end) (h1 : cfg.epsilon_end ≤ cfg.epsilon_start)
    (h2 : 0 ≤ cfg.epsilon_decay) (h3 : cfg.epsilon_decay ≤ 1) :
    a0.epsilon = cfg.epsilon_start ∧
    ∀ b, AgentReach a0 b →
      (b.config = cfg ∧
       cfg.epsilon_end ≤ b.epsilon ∧ b.epsilon ≤ cfg.epsilon_start) ∧
      (∀ c, AgentStepRel b c → c.epsilon ≤ b.epsilon) ∧
      (∀ engine draw c l, trainStep engine draw b = Except.ok (c, l) →
        cfg.min_buffer_size ≤ b.replay_buffer.buffer.length →
        c.epsilon = max cfg.epsilon_end (b.epsilon * cfg.epsilon_decay)) := by
  unfold DQNAgent.init at hinit
  by_cases hh : cfg.hidden_sizes = []
  · rw [if_pos hh] at hinit
    exact Except.noConfusion hinit
  rw [if_neg hh] at hinit
  by_cases hl : cfg.learning_rate < 0
  · rw [if_pos hl] at hinit
    exact Except.noConfusion hinit
  rw [if_neg hl] at hinit
  obtain rfl : DQNAgent.mkState sd ad cfg qF p = a0 := by simpa using hinit
  have step_inv : ∀ b c, AgentStepRel b c → b.config = cfg →
      cfg.epsilon_end ≤ b.epsilon → b.epsilon ≤ cfg.epsilon_start →
      (c.config = cfg ∧
       cfg.epsilon_end ≤ c.epsilon ∧ c.epsilon ≤ cfg.epsilon_start) ∧
      c.epsilon ≤ b.epsilon := by
    intro b c hbc hbcfg hlo hhi
    rcases hbc with ⟨s, act, r, s2, d, rfl⟩ | hbc
    · exact ⟨⟨hbcfg, hlo, hhi⟩, le_rfl⟩
    obtain ⟨hccfg, hcase⟩ := trainStepRel_cases hbc
    rcases hcase with ⟨hcold, rfl⟩ | ⟨hwarm, heps⟩
    · exact ⟨⟨hbcfg, hlo, hhi⟩, le_rfl⟩
    rw [hbcfg] at heps
    have hepos : (0 : ℚ) ≤ b.epsilon := le_trans h0 hlo
    have hmono : max cfg.epsilon_end (b.epsilon * cfg.epsilon_decay) ≤
        b.epsilon := by
      apply max_le hlo
      nlinarith
    refine ⟨⟨hccfg.trans hbcfg, ?_, ?_⟩, ?_⟩
    · rw [heps]; exact le_max_left _ _
    · rw [heps]; exact le_trans hmono hhi
    · rw [heps]; exact hmono
  refine ⟨rfl, ?_⟩
  intro b hreach
  have hreach2 : Relation.ReflTransGen AgentStepRel
      (DQNAgent.mkState sd ad cfg qF p) b := hreach
  clear hreach
  have hinv : b.config = cfg ∧
      cfg.epsilon_end ≤ b.epsilon ∧ b.epsilon ≤ cfg.epsilon_start := by
    induction hreach2 with
    | refl => exact ⟨rfl, h1, le_rfl⟩
    | tail hab hbc ih => exact (step_inv _ _ hbc ih.1 ih.2.1 ih.2.2).1
  refine ⟨hinv, fun c hbc => (step_inv b c hbc hinv.1 hinv.2.1 hinv.2.2).2, ?_⟩
  intro engine draw c l hstep hwarm
  have hnot : ¬ (b.replay_buffer.buffer.length < b.config.min_buffer_size) := by
    rw [hinv.1]
    omega
  cases hsample : (b.replay_buffer.sample b.config.batch_size draw).1 with
  | error m =>
    unfold trainStep at hstep
    rw [if_neg hnot, hsample] at hstep
    simp [Except.map] at hstep
  | ok batch =>
    have hw := trainStep_warm engine draw b batch (Nat.not_lt.1 hnot) hsample
    rw [hw] at hstep
    obtain ⟨rfl, -⟩ : warmAgent engine b batch = c ∧
        some (warmLoss b batch) = l := by simpa using hstep
    show max b.config.epsilon_end (b.epsilon * b.config.epsilon_decay) = _
    rw [hinv.1]

/-- Witness for C4: the agent constructed under `cfgW` reaches the warm
state `B0` by one `store_transition`, and a `train_step` there decays
epsilon by the formula, with decay factor one half. -/
theorem epsilon_monotone_bounds_witness :
    DQNAgent.init 1 1 cfgW qfConst1 [0] = Except.ok W0 ∧
    (0 ≤ cfgW.epsilon_end ∧ cfgW.epsilon_end ≤ cfgW.epsilon_start ∧
     0 ≤ cfgW.epsilon_decay ∧ cfgW.epsilon_decay ≤ 1) ∧
    AgentReach W0 B0 ∧
    cfgW.min_buffer_size ≤ B0.replay_buffer.buffer.length ∧
    ∃ c l, trainStep engineId [0] B0 = Except.ok (c, l) ∧
      c.epsilon = max cfgW.epsilon_end (B0.epsilon * cfgW.epsilon_decay) := by
  have hreach : AgentReach W0 B0 :=
    Relation.ReflTransGen.single (Or.inl ⟨[0], 0, 0, [0], true, rfl⟩)
  have main := epsilon_monotone_bounds 1 1 cfgW qfConst1 [0] W0 rfl
    (by decide) (by decide) (by decide) (by decide)
  have hstep := trainStep_warm engineId [0] B0 [t0] (by decide) rfl
  exact ⟨rfl, ⟨by decide, by decide, by decide, by decide⟩, hreach, by decide,
    _, _, hstep,
    (main.2 B0 hreach).2.2 engineId [0] _ _ hstep (by decide)⟩

/-- C8 fails as stated: `cfgBad` has `min_buffer_size < batch_size` and
`tau` outside `(0, 1]`, yet construction raises nothing — it returns an
agent that silently stores the invalid configuration verbatim. -/
theorem init_accepts_invalid_config :
    cfgBad.min_buffer_size < cfgBad.batch_size ∧ 1 < cfgBad.tau ∧
    Except.map (fun a => a.config) (DQNAgent.init 6 4 cfgBad qfZero []) =
      Except.ok cfgBad :=
  ⟨by decide, by decide, rfl⟩

/-- C8 (amended): `__init__` validates none of the hyperparameters the
claim enumerates. Its only failure paths are library checks met on the
way — `hidden_sizes = []` (IndexError at `hidden_sizes[-1]` while building
the networks) and a negative learning rate (Adam's ValueError) — and
neither concerns the enumerated values: whenever those two checks pass,
construction succeeds and `min_buffer_size < batch_size`, non-positive
dimensions and `tau` outside `(0, 1]` are all silently accepted, the
configuration stored verbatim, never auto-corrected. -/
theorem init_stores_config_unvalidated (sd ad : Nat) (cfg : DQNConfig)
    (qF : List ℚ → List ℚ → List ℚ) (p : List ℚ)
    (hhs : cfg.hidden_sizes ≠ []) (hlr : 0 ≤ cfg.learning_rate) :
    ∃ a, DQNAgent.init sd ad cfg qF p = Except.ok a ∧
      a.config = cfg ∧ a.state_dim = sd ∧ a.action_dim = ad ∧
      a.epsilon = cfg.epsilon_start ∧ a.policyParams = p ∧
      a.targetParams = p ∧ a.training_steps = 0 ∧ a.episode_count = 0 ∧
      a.replay_buffer = ReplayBuffer.init cfg.buffer_size := by
  refine ⟨DQNAgent.mkState sd ad cfg qF p, ?_,
    rfl, rfl, rfl, rfl, rfl, rfl, rfl, rfl, rfl⟩
  unfold DQNAgent.init
  rw [if_neg hhs, if_neg (not_lt.2 hlr)]

/-- Witness for C8 (amended) at the concrete invalid configuration
`cfgBad`. -/
theorem init_stores_config_unvalidated_witness :
    (cfgBad.hidden_sizes ≠ [] ∧ 0 ≤ cfgBad.learning_rate ∧
     cfgBad.min_buffer_size < cfgBad.batch_size ∧ 1 < cfgBad.tau) ∧
    ∃ a, DQNAgent.init 6 4 cfgBad qfZero [] = Except.ok a ∧
      a.config = cfgBad ∧ a.state_dim = 6 ∧ a.action_dim = 4 ∧
      a.epsilon = cfgBad.epsilon_start ∧ a.policyParams = [] ∧
      a.targetParams = [] ∧ a.training_steps = 0 ∧ a.episode_count = 0 ∧
      a.replay_buffer = ReplayBuffer.init cfgBad.buffer_size :=
  ⟨⟨by decide, by decide, by decide, by decide⟩,
    init_stores_config_unvalidated 6 4 cfgBad qfZero [] (by decide) (by decide)⟩

/-- C9 fails as stated: a warm `train_step` applies the optimizer update
unconditionally (the policy parameters become the engine's output `[5]`,
there is no branch inspecting the loss), and the metrics of the resulting
agent expose exactly the keys training_steps, episode_count, epsilon,
buffer_size, avg_loss — no skipped-step counter exists anywhere in
`get_metrics`. -/
theorem no_skip_counter_cex :
    Except.map (fun r => (r.1.policyParams, (getMetrics r.1).1.map Prod.fst))
      (trainStep engineShift [0] A1) =
    Except.ok ([5], ["training_steps", "episode_count", "epsilon",
      "buffer_size", "avg_loss"]) ∧
    A1.policyParams = [0] := by
  refine ⟨?_, rfl⟩
  rw [trainStep_warm engineShift [0] A1 [t0] (by decide) rfl]
  rfl

/-- C9 (amended): `train_step` never skips the optimizer step — whatever
loss arises, the policy parameters are replaced by the engine's output and
the step counter advances — and `get_metrics` exposes no skipped-step
counter: every key it ever emits is among the seven fixed names. -/
theorem train_step_never_skipped (engine : GradEngine) (draw : List Nat)
    (a : DQNAgent) (batch : List Transition)
    (hwarm : a.config.min_buffer_size ≤ a.replay_buffer.buffer.length)
    (hs : (a.replay_buffer.sample a.config.batch_size draw).1 =
      Except.ok batch) :
    (∃ a2 l, trainStep engine draw a = Except.ok (a2, some l) ∧
      a2.policyParams = (engine a.policyParams a.optimState batch).1 ∧
      a2.training_steps = a.training_steps + 1) ∧
    (∀ b : DQNAgent, ∀ kv ∈ (getMetrics b).1,
      kv.1 ∈ (["training_steps", "episode_count", "epsilon", "buffer_size",
               "avg_loss", "avg_reward", "best_reward"] : List String)) := by
  constructor
  · exact ⟨_, _, trainStep_warm engine draw a batch hwarm hs, rfl, rfl⟩
  · intro b kv hkv
    unfold getMetrics at hkv
    simp only [List.mem_append] at hkv
    rcases hkv with (h | h) | h
    · simp only [List.mem_cons, List.not_mem_nil, or_false] at h
      rcases h with rfl | rfl | rfl | rfl <;> simp
    · split at h
      · exact absurd h (List.not_mem_nil kv)
      · simp only [List.mem_cons, List.not_mem_nil, or_false] at h
        rcases h with rfl
        simp
    · split at h
      · exact absurd h (List.not_mem_nil kv)
      · simp only [List.mem_cons, List.not_mem_nil, or_false] at h
        rcases h with rfl | rfl <;> simp

/-- Witness for C9 (amended) at the concrete warm agent `A1` and the
parameter-moving engine. -/
theorem train_step_never_skipped_witness :
    A1.config.min_buffer_size ≤ A1.replay_buffer.buffer.length ∧
    ((∃ a2 l, trainStep engineShift [0] A1 = Except.ok (a2, some l) ∧
      a2.policyParams = (engineShift A1.policyParams A1.optimState [t0]).1 ∧
      a2.training_steps = A1.training_steps + 1) ∧
    (∀ b : DQNAgent, ∀ kv ∈ (getMetrics b).1,
      kv.1 ∈ (["training_steps", "episode_count", "epsilon", "buffer_size",
               "avg_loss", "avg_reward", "best_reward"] : List String))) :=
  ⟨by decide, train_step_never_skipped engineShift [0] A1 [t0] (by decide) rfl⟩

end DQN
